import Mathlib

/-!
Shallow embedding of the c20web static file server (src/lib.rs) over byte
lists.  Rust strings and byte buffers are both modelled as `List Nat`
(each element a byte value); a Rust `String`/`&str` is represented by its
UTF-8 byte content, so `String::from(s)`, `as_bytes()` and `format!`
concatenation are the identity / list append on this representation.
Filesystem and socket effects are passed in explicitly as parameters.
-/

/-- Byte list of an ASCII string literal (every character below 128). -/
def ascii (s : String) : List Nat :=
  s.toList.map Char.toNat

/-- Fuel-driven decimal digit accumulator for `natBytes`; fuel `n+1` is always
enough for the number `n` since the argument shrinks by a factor 10. -/
def natDigitsAux : Nat → Nat → List Nat
  | 0, _ => []
  | fuel + 1, n => if n < 10 then [48 + n] else natDigitsAux fuel (n / 10) ++ [48 + n % 10]

/-- Decimal ASCII representation of a natural number, as produced by the
Display impl used in the format strings of the source. -/
def natBytes (n : Nat) : List Nat :=
  natDigitsAux (n + 1) n

/-- True when a byte is a UTF-8 continuation byte (0x80..=0xBF). -/
def isCont (b : Nat) : Bool :=
  0x80 ≤ b && b ≤ 0xBF

/-- UTF-8 validation, following the table used by core str validation in Rust:
returns `none` when the byte list is valid UTF-8 and otherwise
`some (validUpTo, errorLen)` where `errorLen = none` marks an incomplete
sequence at the end of the input.  `i` is the byte index of the position
currently examined. -/
def utf8Validate : List Nat → Nat → Option (Nat × Option Nat)
  | [], _ => none
  | b :: rest, i =>
    if b ≤ 0x7F then utf8Validate rest (i + 1)
    else if 0xC2 ≤ b && b ≤ 0xDF then
      match rest with
      | [] => some (i, none)
      | c :: r => if isCont c then utf8Validate r (i + 2) else some (i, some 1)
    else if b == 0xE0 then
      match rest with
      | [] => some (i, none)
      | c :: r =>
        if 0xA0 ≤ c && c ≤ 0xBF then
          match r with
          | [] => some (i, none)
          | d :: r2 => if isCont d then utf8Validate r2 (i + 3) else some (i, some 2)
        else some (i, some 1)
    else if (0xE1 ≤ b && b ≤ 0xEC) || b == 0xEE || b == 0xEF then
      match rest with
      | [] => some (i, none)
      | c :: r =>
        if isCont c then
          match r with
          | [] => some (i, none)
          | d :: r2 => if isCont d then utf8Validate r2 (i + 3) else some (i, some 2)
        else some (i, some 1)
    else if b == 0xED then
      match rest with
      | [] => some (i, none)
      | c :: r =>
        if 0x80 ≤ c && c ≤ 0x9F then
          match r with
          | [] => some (i, none)
          | d :: r2 => if isCont d then utf8Validate r2 (i + 3) else some (i, some 2)
        else some (i, some 1)
    else if b == 0xF0 then
      match rest with
      | [] => some (i, none)
      | c :: r =>
        if 0x90 ≤ c && c ≤ 0xBF then
          match r with
          | [] => some (i, none)
          | d :: r2 =>
            if isCont d then
              match r2 with
              | [] => some (i, none)
              | e :: r3 => if isCont e then utf8Validate r3 (i + 4) else some (i, some 3)
            else some (i, some 2)
        else some (i, some 1)
    else if 0xF1 ≤ b && b ≤ 0xF3 then
      match rest with
      | [] => some (i, none)
      | c :: r =>
        if isCont c then
          match r with
          | [] => some (i, none)
          | d :: r2 =>
            if isCont d then
              match r2 with
              | [] => some (i, none)
              | e :: r3 => if isCont e then utf8Validate r3 (i + 4) else some (i, some 3)
            else some (i, some 2)
        else some (i, some 1)
    else if b == 0xF4 then
      match rest with
      | [] => some (i, none)
      | c :: r =>
        if 0x80 ≤ c && c ≤ 0x8F then
          match r with
          | [] => some (i, none)
          | d :: r2 =>
            if isCont d then
              match r2 with
              | [] => some (i, none)
              | e :: r3 => if isCont e then utf8Validate r3 (i + 4) else some (i, some 3)
            else some (i, some 2)
        else some (i, some 1)
    else some (i, some 1)

/-- True when the byte list is valid UTF-8. -/
def utf8Valid (bs : List Nat) : Bool :=
  (utf8Validate bs 0).isNone

/-- Model of `std::str::from_utf8`: on success the returned `&str` is the same
bytes, on failure nothing. -/
def from_utf8 (bs : List Nat) : Option (List Nat) :=
  if utf8Valid bs then some bs else none

/-- Display text of `std::str::Utf8Error`, as interpolated by `format!` in the
parse error messages of the source. -/
def utf8ErrorDisplay (bs : List Nat) : List Nat :=
  match utf8Validate bs 0 with
  | none => []
  | some (i, some n) =>
      ascii "invalid utf-8 sequence of " ++ natBytes n ++ ascii " bytes from index " ++ natBytes i
  | some (i, none) =>
      ascii "incomplete utf-8 byte sequence from index " ++ natBytes i

/-- UTF-8 encoding of U+FFFD REPLACEMENT CHARACTER. -/
def replacementChar : List Nat := [0xEF, 0xBF, 0xBD]

/-- Fuel-driven core of `utf8Lossy`; each error consumes at least one byte so
fuel equal to the length of the input always suffices. -/
def utf8LossyAux : Nat → List Nat → List Nat
  | 0, s => s
  | fuel + 1, s =>
    match utf8Validate s 0 with
    | none => s
    | some (i, some n) => s.take i ++ replacementChar ++ utf8LossyAux fuel (s.drop (i + n))
    | some (i, none) => s.take i ++ replacementChar

/-- Model of `String::from_utf8_lossy`, as UTF-8 bytes of the resulting string:
every maximal ill-formed subsequence becomes one U+FFFD, and an incomplete
sequence at the end of the input becomes a single U+FFFD. -/
def utf8Lossy (s : List Nat) : List Nat :=
  utf8LossyAux s.length s

/-- Fuel-driven core of `replacen`; fuel equal to the length of the scanned
list always suffices since each step consumes at least one byte. -/
def replacenAux (pat rep : List Nat) : Nat → List Nat → Nat → List Nat
  | _, s, 0 => s
  | 0, s, _ + 1 => s
  | _ + 1, [], _ + 1 => []
  | fuel + 1, b :: rest, n + 1 =>
    if pat.isPrefixOf (b :: rest) && !pat.isEmpty then
      rep ++ replacenAux pat rep fuel (List.drop pat.length (b :: rest)) n
    else
      b :: replacenAux pat rep fuel rest (n + 1)

/-- Model of Rust `str::replacen self pat rep count` for a non-empty pattern:
replaces the first `count` non-overlapping occurrences of `pat`, scanning left
to right (the source only ever calls it with the non-empty patterns producing a
slash or a placeholder). -/
def replacen (s pat rep : List Nat) (count : Nat) : List Nat :=
  replacenAux pat rep s.length s count

/-- Represents an HTTP Request (struct Request in src/lib.rs); the three
`String` fields are carried as their UTF-8 bytes. -/
structure Request where
  method : List Nat
  resource : List Nat
  http_version : List Nat
deriving DecidableEq

/-- Represents an HTTP Response (struct Response in src/lib.rs). -/
structure Response where
  code : Nat
  mime : List Nat
  body : List Nat
deriving DecidableEq

/-- Modelled from the spec: the read-only status table `HTTP_RESPONSE_TABLE`
lives in src/statics.rs, which is not part of the sources provided; the spec
states it covers the standard registry and that every code in
200, 400, 404, 413, 501, 505 used internally has a non-Unknown reason phrase,
with 200 mapping to OK and 404 to Not Found.  We model exactly the entries the
core uses, with the standard registry phrases. -/
def HTTP_RESPONSE_TABLE (code : Nat) : Option (List Nat) :=
  if code = 200 then some (ascii "OK")
  else if code = 400 then some (ascii "Bad Request")
  else if code = 404 then some (ascii "Not Found")
  else if code = 413 then some (ascii "Payload Too Large")
  else if code = 501 then some (ascii "Not Implemented")
  else if code = 505 then some (ascii "HTTP Version Not Supported")
  else none

/-- Modelled from the spec: the read-only extension-to-MIME table
`MIME_BY_EXTENSION` lives in src/statics.rs, which is not part of the sources
provided; the doc examples in src/lib.rs pin jpg to image/jpeg, and the spec
pins html resources to text/html.  We model a small table with those entries;
the claims settled here never depend on any particular entry. -/
def MIME_BY_EXTENSION (extension : List Nat) : Option (List Nat) :=
  if extension = ascii "html" then some (ascii "text/html")
  else if extension = ascii "htm" then some (ascii "text/html")
  else if extension = ascii "jpg" then some (ascii "image/jpeg")
  else if extension = ascii "jpeg" then some (ascii "image/jpeg")
  else if extension = ascii "png" then some (ascii "image/png")
  else if extension = ascii "css" then some (ascii "text/css")
  else if extension = ascii "js" then some (ascii "text/javascript")
  else if extension = ascii "txt" then some (ascii "text/plain")
  else none

/-- Response::new in src/lib.rs: default MIME type text/html, the body is the
byte content of the given string. -/
def Response.new (code : Nat) (body : List Nat) : Response :=
  { code := code, mime := ascii "text/html", body := body }

/-- Status line text computed at the top of Response::to_vec:
format of code and table phrase, with the Unknown fallback on a table miss. -/
def statusText (code : Nat) : List Nat :=
  match HTTP_RESPONSE_TABLE code with
  | some status_str => natBytes code ++ [32] ++ status_str
  | none => natBytes code ++ [32] ++ ascii "Unknown"

/-- ASCII byte of the single quote character, used to spell out the quoted
attributes of the built-in error page. -/
def quoteByte : List Nat := [39]

/-- The built-in inline error page of Response::to_vec, used when error.html
cannot be read.  It contains three placeholder occurrences: title, heading and
detail paragraph. -/
def defaultErrorPage : List Nat :=
  ascii "<!DOCTYPE html><html lang=" ++ quoteByte ++ ascii "en" ++ quoteByte ++
  ascii "><head><meta charset=" ++ quoteByte ++ ascii "utf-8" ++ quoteByte ++
  ascii "><title>\x7b\x7d</title></head><body><h1>\x7b\x7d</h1><p>\x7b\x7d</p></body></html>"

/-- The placeholder marker searched for by the replacen calls of
Response::to_vec. -/
def placeholder : List Nat := ascii "\x7b\x7d"

/-- Response::to_vec in src/lib.rs.  `errorHtml` models the outcome of
`fs::read_to_string("error.html")`: `some content` when the file exists and is
valid UTF-8, `none` for any read failure (then the built-in page is used). -/
def Response.to_vec (self : Response) (errorHtml : Option (List Nat)) : List Nat :=
  let status := statusText self.code
  let body_out : List Nat :=
    if self.code < 200 || 300 ≤ self.code then
      let error_page :=
        match errorHtml with
        | none => defaultErrorPage
        | some body => body
      let error_page2 := replacen error_page placeholder status 2
      let error_descr := utf8Lossy self.body
      replacen error_page2 placeholder error_descr 1
    else
      self.body
  ascii "HTTP/1.1 " ++ status ++ ascii "\r\nContent-Type: " ++ self.mime ++
    ascii ";\r\nContent-Length: " ++ natBytes body_out.length ++ ascii ";\r\n\r\n" ++ body_out

/-- The scanning loop at the top of Request::parse: walks the buffer tracking
the current byte index `i` and the indices of the first two spaces found so
far (`iem` for end of method, `ier` for end of resource, both 0 while
unset), stopping at the first CR or LF, whose index is returned as the third
component (0 when no terminator is found). -/
def scanLoop : List Nat → Nat → Nat → Nat → Nat × Nat × Nat
  | [], _, iem, ier => (iem, ier, 0)
  | b :: rest, i, iem, ier =>
    if b = 13 ∨ b = 10 then (iem, ier, i)
    else if b = 32 then
      if iem = 0 then scanLoop rest (i + 1) i ier
      else if ier = 0 then scanLoop rest (i + 1) iem i
      else scanLoop rest (i + 1) iem ier
    else scanLoop rest (i + 1) iem ier

/-- The three indices (end of method, end of resource, end of line) found by
the scan in Request::parse. -/
def scanRequestLine (buffer : List Nat) : Nat × Nat × Nat :=
  scanLoop buffer 0 0 0

/-- Rust byteSlice `buffer[a..b]`, as used by Request::parse on index ranges that
are proved in bounds. -/
def byteSlice (l : List Nat) (a b : Nat) : List Nat :=
  (l.drop a).take (b - a)

/-- Request::parse in src/lib.rs. -/
def Request.parse (buffer : List Nat) : Except Response Request :=
  let idx := scanRequestLine buffer
  let index_end_method := idx.1
  let index_end_resource := idx.2.1
  let index_end_line := idx.2.2
  if index_end_line = 0 ∨ index_end_resource = 0 ∨ index_end_method = 0 then
    .error (Response.new 400 (ascii "Malformed request line"))
  else
    match from_utf8 (byteSlice buffer 0 index_end_method) with
    | none =>
        .error (Response.new 400 (ascii "Malformed method name: " ++
          utf8ErrorDisplay (byteSlice buffer 0 index_end_method)))
    | some method =>
      match from_utf8 (byteSlice buffer (index_end_method + 1) index_end_resource) with
      | none =>
          .error (Response.new 400 (ascii "Malformed resource name: " ++
            utf8ErrorDisplay (byteSlice buffer (index_end_method + 1) index_end_resource)))
      | some resource =>
        match from_utf8 (byteSlice buffer (index_end_resource + 1) index_end_line) with
        | none =>
            .error (Response.new 400 (ascii "Malformed http version: " ++
              utf8ErrorDisplay (byteSlice buffer (index_end_resource + 1) index_end_line)))
        | some http_version =>
            .ok { method := method, resource := resource, http_version := http_version }

/-- Represents the resource portion of the first line of an HTTP Request
(struct ResourcePath in src/lib.rs). -/
structure ResourcePath where
  resource : List Nat
deriving DecidableEq

/-- ResourcePath::get_path in src/lib.rs: replacen of the first slash by the
empty string, then format of webroot, a slash and the remainder. -/
def ResourcePath.get_path (self : ResourcePath) (webroot : List Nat) : List Nat :=
  let path := replacen self.resource [47] [] 1
  webroot ++ [47] ++ path

/-- Splits a byte list on the slash byte 47; models the raw component strings
of a Unix path before Path component normalization. -/
def splitOnSlash : List Nat → List (List Nat)
  | [] => [[]]
  | 47 :: rest => [] :: splitOnSlash rest
  | b :: rest =>
    match splitOnSlash rest with
    | [] => [[b]]
    | g :: gs => (b :: g) :: gs

/-- Index of the last dot byte 46 in a byte list, if any; models the
rposition call inside the split at dot helper of std Path::extension. -/
def rfindDot : List Nat → Option Nat
  | [] => none
  | b :: rest =>
    match rfindDot rest with
    | some i => some (i + 1)
    | none => if b == 46 then some 0 else none

/-- Model of std `Path::file_name` on Unix for a path given as bytes: the last
component after dropping empty components and lone-dot components, unless that
component is a parent-directory marker. -/
def pathFileName (s : List Nat) : Option (List Nat) :=
  match ((splitOnSlash s).filter (fun c => !c.isEmpty && c ≠ [46])).getLast? with
  | none => none
  | some c => if c = [46, 46] then none else some c

/-- Model of std `Path::extension` on Unix for a path given as bytes: the
portion of the file name after its last dot, none when there is no file name,
no dot, or the only dot is the leading byte of the file name. -/
def pathExtension (s : List Nat) : Option (List Nat) :=
  match pathFileName s with
  | none => none
  | some f =>
    if f = [46, 46] then none
    else
      match rfindDot f with
      | none => none
      | some 0 => none
      | some i => some (f.drop (i + 1))

/-- ResourcePath::get_extension in src/lib.rs: extension of the resource seen
as a Path, with any failure (no extension, or an extension that is not valid
text under to_str) degraded to the empty string. -/
def ResourcePath.get_extension (self : ResourcePath) : List Nat :=
  match pathExtension self.resource with
  | some x => if utf8Valid x then x else []
  | none => []

/-- ResourcePath::get_mime in src/lib.rs: MIME table lookup on the extension,
defaulting to text/plain on a miss. -/
def ResourcePath.get_mime (self : ResourcePath) : List Nat :=
  match MIME_BY_EXTENSION self.get_extension with
  | some found_mime => found_mime
  | none => ascii "text/plain"

/-- The read step of handle_connection in src/lib.rs: a zeroed buffer of
`size` bytes into which the stream writes the delivered bytes; bytes beyond
the delivered prefix keep their zero initialization. -/
def readIntoBuffer (size : Nat) (delivered : List Nat) : List Nat :=
  delivered.take size ++ List.replicate (size - delivered.length) 0

/-- The response computation of handle_connection in src/lib.rs.  The ambient
configuration values are passed as `webroot` and `request_max_bytes`; the
filesystem read `std::fs::read` is passed as `read_file` (error side carries
the Display text of the I/O error); `request_result` models the outcome of
`stream.read`: on success the list of bytes the stream delivered into the
buffer (its length is the num_bytes of the source), on failure the Display
text of the read error.  The logging, shutdown and send steps have no effect
on the computed Response. -/
def handle_connection_response (webroot : List Nat) (request_max_bytes : Nat)
    (read_file : List Nat → Except (List Nat) (List Nat))
    (request_result : Except (List Nat) (List Nat)) : Response :=
  match request_result with
  | .error err_str =>
      Response.new 400 (ascii "The network stream didn" ++ quoteByte ++
        ascii "t stay valid long enough for the server to read it: " ++ err_str)
  | .ok delivered =>
    let buffer := readIntoBuffer (request_max_bytes + 1) delivered
    if request_max_bytes ≤ delivered.length then
      Response.new 413 []
    else
      match Request.parse buffer with
      | .error res => res
      | .ok request =>
        if request.method ≠ ascii "GET" then
          Response.new 501 (ascii "This server only accepts GET requests.")
        else if request.http_version ≠ ascii "HTTP/1.1" then
          Response.new 505 (ascii "This server only speaks HTTP/1.1")
        else
          let res : ResourcePath := { resource := request.resource }
          let path := res.get_path webroot
          let mime := res.get_mime
          match read_file path with
          | .ok bytes => { code := 200, mime := mime, body := bytes }
          | .error e => Response.new 404 e

/-- The rendered error page: the status line text substituted into the first
two placeholder occurrences of the template, the error detail into the next
one. -/
def renderErrorPage (template status descr : List Nat) : List Nat :=
  replacen (replacen template placeholder status 2) placeholder descr 1

/-- The final body of a serialized Response: the rendered error page for codes
outside 200..=299, the stored body unchanged otherwise. -/
def finalBody (r : Response) (errorHtml : Option (List Nat)) : List Nat :=
  if r.code < 200 || 300 ≤ r.code then
    renderErrorPage (errorHtml.getD defaultErrorPage) (statusText r.code) (utf8Lossy r.body)
  else
    r.body

/-- Spec-side formulation for claim C6: drop the first slash byte found
anywhere in the list, keep everything else unchanged. -/
def stripFirstSeparator : List Nat → List Nat
  | [] => []
  | b :: rest => if b = 47 then rest else b :: stripFirstSeparator rest

/-- Number of space bytes strictly before the first CR or LF byte (spanning
the whole list when no terminator occurs). -/
def spacesBeforeTerminator (buffer : List Nat) : Nat :=
  (buffer.takeWhile (fun b => !(b == 13 || b == 10))).countP (fun b => b == 32)

/-- Spec-side formulation for claim C7: the final path segment, determined by
a left fold that keeps the last segment that is neither empty nor a lone
dot. -/
def lastSegmentSpec (resource : List Nat) : Option (List Nat) :=
  (splitOnSlash resource).foldl (fun acc c => if c.isEmpty || c = [46] then acc else some c) none

/-- Spec-side formulation for claim C7 as amended: the substring after the
last dot of the final path segment, empty when there is no segment or no dot,
empty for a dotfile segment (leading dot and no other dot), and empty when
the extracted bytes are not valid text. -/
def extensionSpec (resource : List Nat) : List Nat :=
  match lastSegmentSpec resource with
  | none => []
  | some seg =>
    match rfindDot seg with
    | none => []
    | some i =>
      if seg.head? = some 46 && !seg.tail.contains 46 then []
      else
        let ext := seg.drop (i + 1)
        if utf8Valid ext then ext else []

deriving instance DecidableEq for Except

/-- Unfolding helper: a successful from_utf8 returns exactly the input
bytes. -/
theorem from_utf8_eq_some {bs s : List Nat} (h : from_utf8 bs = some s) : s = bs := by
  unfold from_utf8 at h
  split at h
  · exact (Option.some.inj h).symm
  · exact absurd h (by simp)

/-- Unfolding helper: the serialized response is always the status line, the
two headers and the final body, in the exact wire layout of the source. -/
theorem to_vec_shape (r : Response) (errorHtml : Option (List Nat)) :
    Response.to_vec r errorHtml =
      ascii "HTTP/1.1 " ++ statusText r.code ++ ascii "\r\nContent-Type: " ++ r.mime ++
        ascii ";\r\nContent-Length: " ++ natBytes (finalBody r errorHtml).length ++
        ascii ";\r\n\r\n" ++ finalBody r errorHtml := by
  unfold Response.to_vec finalBody renderErrorPage
  cases errorHtml <;> split <;> simp_all

/-- Unfolding helper: a body that is valid UTF-8 is returned unchanged by the
lossy decoding. -/
theorem utf8Lossy_of_valid {bs : List Nat} (h : utf8Valid bs = true) : utf8Lossy bs = bs := by
  have hv : utf8Validate bs 0 = none := by
    rwa [utf8Valid, Option.isNone_iff_eq_none] at h
  show utf8LossyAux bs.length bs = bs
  cases hL : bs.length with
  | zero => simp [utf8LossyAux]
  | succ k => simp [utf8LossyAux, hv]

/-- C1: every Response serializes to the exact historical wire format, status
line then Content-Type and Content-Length each with a trailing semicolon, a
blank line, and the final body (after any error-page substitution), whose
byte length is the Content-Length value; in particular the 200 text/html
example serializes byte for byte as stated. -/
theorem claim_response_wire_format :
    (∀ (r : Response) (errorHtml : Option (List Nat)),
      Response.to_vec r errorHtml =
        ascii "HTTP/1.1 " ++ statusText r.code ++ ascii "\r\nContent-Type: " ++ r.mime ++
          ascii ";\r\nContent-Length: " ++ natBytes (finalBody r errorHtml).length ++
          ascii ";\r\n\r\n" ++ finalBody r errorHtml) ∧
    Response.to_vec { code := 200, mime := ascii "text/html", body := ascii "<html>...</html>" } none =
      ascii "HTTP/1.1 200 OK\r\nContent-Type: text/html;\r\nContent-Length: 16;\r\n\r\n<html>...</html>" :=
  ⟨to_vec_shape, by decide⟩

/-- C2 (amended): for a code outside 200..=299 the body is replaced by the
rendered error-page template, the status line text going into the first two
placeholder occurrences and the error detail into the next, no matter what
payload the Response held; the detail is the lossy UTF-8 decoding of the
original body (so a textual body is passed through exactly, while invalid
sequences of a binary body become U+FFFD replacement characters, not an empty
string). -/
theorem claim_error_body_replaced (r : Response) (errorHtml : Option (List Nat))
    (h : r.code < 200 ∨ 300 ≤ r.code) :
    Response.to_vec r errorHtml =
      ascii "HTTP/1.1 " ++ statusText r.code ++ ascii "\r\nContent-Type: " ++ r.mime ++
        ascii ";\r\nContent-Length: " ++
        natBytes (renderErrorPage (errorHtml.getD defaultErrorPage) (statusText r.code)
          (utf8Lossy r.body)).length ++
        ascii ";\r\n\r\n" ++
        renderErrorPage (errorHtml.getD defaultErrorPage) (statusText r.code) (utf8Lossy r.body) ∧
    (utf8Valid r.body = true → utf8Lossy r.body = r.body) := by
  have hcond : (decide (r.code < 200) || decide (300 ≤ r.code)) = true := by
    rcases h with h | h <;> simp [h]
  constructor
  · rw [to_vec_shape]
    unfold finalBody
    rw [if_pos hcond]
  · exact fun hv => utf8Lossy_of_valid hv

/-- Witness for C2 at a concrete 404 Response with a textual body. -/
theorem claim_error_body_replaced_witness :
    Response.to_vec { code := 404, mime := ascii "text/html", body := ascii "oops" } none =
      ascii "HTTP/1.1 " ++ statusText 404 ++ ascii "\r\nContent-Type: " ++ ascii "text/html" ++
        ascii ";\r\nContent-Length: " ++
        natBytes (renderErrorPage ((none : Option (List Nat)).getD defaultErrorPage) (statusText 404)
          (utf8Lossy (ascii "oops"))).length ++
        ascii ";\r\n\r\n" ++
        renderErrorPage ((none : Option (List Nat)).getD defaultErrorPage) (statusText 404)
          (utf8Lossy (ascii "oops")) ∧
    (utf8Valid (ascii "oops") = true → utf8Lossy (ascii "oops") = ascii "oops") :=
  claim_error_body_replaced { code := 404, mime := ascii "text/html", body := ascii "oops" } none
    (by decide)

set_option maxRecDepth 16384 in
/-- Counterexample for C2 as frozen: the claim says a binary (non-text) body
contributes an empty detail string, which would make the 404 output for body
0xFF coincide with the output for the empty body; the code instead renders a
U+FFFD replacement character, so the outputs differ. -/
theorem claim_error_body_replaced_cx :
    utf8Lossy [255] = replacementChar ∧ utf8Lossy [] = [] ∧
    Response.to_vec { code := 404, mime := ascii "text/html", body := [255] } none ≠
      Response.to_vec { code := 404, mime := ascii "text/html", body := [] } none := by
  refine ⟨by decide, by decide, ?_⟩
  decide

/-- C3: whenever the stream read delivers at least request_max_bytes bytes the
handler answers 413 with an empty body, whatever the bytes were, and the read
buffer it allocated has exactly request_max_bytes + 1 bytes. -/
theorem claim_oversized_request (webroot : List Nat) (request_max_bytes : Nat)
    (read_file : List Nat → Except (List Nat) (List Nat)) (delivered : List Nat)
    (h : request_max_bytes ≤ delivered.length) :
    handle_connection_response webroot request_max_bytes read_file (.ok delivered) =
      { code := 413, mime := ascii "text/html", body := [] } ∧
    (readIntoBuffer (request_max_bytes + 1) delivered).length = request_max_bytes + 1 := by
  constructor
  · simp only [handle_connection_response]
    rw [if_pos h]
    rfl
  · simp only [readIntoBuffer, List.length_append, List.length_take, List.length_replicate]
    omega

/-- Witness for C3 at a concrete oversized read. -/
theorem claim_oversized_request_witness :
    4 ≤ (ascii "GET /").length ∧
    (handle_connection_response (ascii "w") 4 (fun _ => .error []) (.ok (ascii "GET /")) =
      { code := 413, mime := ascii "text/html", body := [] } ∧
    (readIntoBuffer (4 + 1) (ascii "GET /")).length = 4 + 1) :=
  ⟨by decide, claim_oversized_request (ascii "w") 4 (fun _ => .error []) (ascii "GET /") (by decide)⟩

/-- C9 (amended): the serialized response carries exactly the two headers
Content-Type and Content-Length, and the Content-Type value is always the
mime field of the Response, for success and error codes alike; error
Responses built through Response::new carry the default text/html mime, which
is how error pages come out as text/html — to_vec itself never overrides the
field. -/
theorem claim_headers_fixed :
    (∀ (r : Response) (errorHtml : Option (List Nat)),
      Response.to_vec r errorHtml =
        ascii "HTTP/1.1 " ++ statusText r.code ++ ascii "\r\nContent-Type: " ++ r.mime ++
          ascii ";\r\nContent-Length: " ++ natBytes (finalBody r errorHtml).length ++
          ascii ";\r\n\r\n" ++ finalBody r errorHtml) ∧
    (∀ (code : Nat) (body : List Nat), (Response.new code body).mime = ascii "text/html") :=
  ⟨to_vec_shape, fun _ _ => rfl⟩

set_option maxRecDepth 16384 in
/-- Counterexample for C9 as frozen: if the Content-Type of an error response
were forced to the MIME type of the error-page template (text/html), the
serialized output could not depend on the mime field; it does. -/
theorem claim_headers_fixed_cx :
    Response.to_vec { code := 404, mime := ascii "image/png", body := [] } none ≠
      Response.to_vec { code := 404, mime := ascii "text/html", body := [] } none := by
  decide

/-- Scan invariant: starting from a state where any already-set space index is
below the current position and ordered, a fully-set scan result is strictly
ordered and its line terminator index lies inside the scanned range. -/
theorem scanLoop_inv (l : List Nat) : ∀ (i iem ier : Nat),
    (iem ≠ 0 → iem < i) →
    (ier ≠ 0 → iem ≠ 0 ∧ iem < ier ∧ ier < i) →
    (scanLoop l i iem ier).1 ≠ 0 → (scanLoop l i iem ier).2.1 ≠ 0 →
    (scanLoop l i iem ier).2.2 ≠ 0 →
    0 < (scanLoop l i iem ier).1 ∧
    (scanLoop l i iem ier).1 < (scanLoop l i iem ier).2.1 ∧
    (scanLoop l i iem ier).2.1 < (scanLoop l i iem ier).2.2 ∧
    (scanLoop l i iem ier).2.2 < i + l.length := by
  induction l with
  | nil =>
    intro i iem ier _ _ _ _ hc
    exact absurd rfl hc
  | cons b rest ih =>
    intro i iem ier h1 h2
    simp only [scanLoop]
    by_cases ht : b = 13 ∨ b = 10
    · rw [if_pos ht]
      intro ha hb _
      obtain ⟨hm, hr, hi⟩ := h2 hb
      simp only [List.length_cons]
      exact ⟨Nat.pos_of_ne_zero ha, hr, hi, by omega⟩
    · rw [if_neg ht]
      by_cases hs : b = 32
      · rw [if_pos hs]
        by_cases hm : iem = 0
        · rw [if_pos hm]
          intro ha hb hc
          obtain ⟨c1, c2, c3, c4⟩ :=
            ih (i + 1) i ier (fun _ => Nat.lt_succ_self i)
              (fun h => absurd hm (h2 h).1) ha hb hc
          exact ⟨c1, c2, c3, by simp only [List.length_cons]; omega⟩
        · rw [if_neg hm]
          by_cases hr : ier = 0
          · rw [if_pos hr]
            intro ha hb hc
            obtain ⟨c1, c2, c3, c4⟩ :=
              ih (i + 1) iem i (fun h => Nat.lt_succ_of_lt (h1 h))
                (fun _ => ⟨hm, h1 hm, Nat.lt_succ_self i⟩) ha hb hc
            exact ⟨c1, c2, c3, by simp only [List.length_cons]; omega⟩
          · rw [if_neg hr]
            intro ha hb hc
            obtain ⟨c1, c2, c3, c4⟩ :=
              ih (i + 1) iem ier (fun h => Nat.lt_succ_of_lt (h1 h))
                (fun h => ⟨(h2 h).1, (h2 h).2.1, Nat.lt_succ_of_lt (h2 h).2.2⟩) ha hb hc
            exact ⟨c1, c2, c3, by simp only [List.length_cons]; omega⟩
      · rw [if_neg hs]
        intro ha hb hc
        obtain ⟨c1, c2, c3, c4⟩ :=
          ih (i + 1) iem ier (fun h => Nat.lt_succ_of_lt (h1 h))
            (fun h => ⟨(h2 h).1, (h2 h).2.1, Nat.lt_succ_of_lt (h2 h).2.2⟩) ha hb hc
        exact ⟨c1, c2, c3, by simp only [List.length_cons]; omega⟩

/-- C10: on every buffer the parser returns a value (it is a total function of
the buffer), and whenever it succeeds the three scan indices are strictly
ordered and bounded by the buffer length, so every byte range taken from the
buffer for the method, resource and version tokens is in bounds. -/
theorem claim_parse_total_indices (buffer : List Nat) (req : Request)
    (h : Request.parse buffer = .ok req) :
    0 < (scanRequestLine buffer).1 ∧
    (scanRequestLine buffer).1 < (scanRequestLine buffer).2.1 ∧
    (scanRequestLine buffer).2.1 < (scanRequestLine buffer).2.2 ∧
    (scanRequestLine buffer).2.2 ≤ buffer.length := by
  simp only [scanRequestLine]
  by_cases hc : (scanLoop buffer 0 0 0).2.2 = 0 ∨ (scanLoop buffer 0 0 0).2.1 = 0 ∨
      (scanLoop buffer 0 0 0).1 = 0
  · simp only [Request.parse, scanRequestLine] at h
    rw [if_pos hc] at h
    exact absurd h (by simp)
  · push_neg at hc
    obtain ⟨hc1, hc2, hc3⟩ := hc
    have hinv :=
      scanLoop_inv buffer 0 0 0 (fun hh => absurd rfl hh) (fun hh => absurd rfl hh) hc3 hc2 hc1
    exact ⟨hinv.1, hinv.2.1, hinv.2.2.1, by have := hinv.2.2.2; omega⟩

/-- Witness for C10 at a concrete well-formed request line. -/
theorem claim_parse_total_indices_witness :
    0 < (scanRequestLine (ascii "GET /a HTTP/1.1\r\n")).1 ∧
    (scanRequestLine (ascii "GET /a HTTP/1.1\r\n")).1 <
      (scanRequestLine (ascii "GET /a HTTP/1.1\r\n")).2.1 ∧
    (scanRequestLine (ascii "GET /a HTTP/1.1\r\n")).2.1 <
      (scanRequestLine (ascii "GET /a HTTP/1.1\r\n")).2.2 ∧
    (scanRequestLine (ascii "GET /a HTTP/1.1\r\n")).2.2 ≤ (ascii "GET /a HTTP/1.1\r\n").length :=
  claim_parse_total_indices (ascii "GET /a HTTP/1.1\r\n")
    { method := ascii "GET", resource := ascii "/a", http_version := ascii "HTTP/1.1" } (by decide)

/-- C4: a successful parse copies the three tokens byte for byte from the
buffer ranges delimited by the two spaces and the line terminator found by
the scan, with no transformation; in particular the documented GET example
parses to the exact three strings. -/
theorem claim_parse_tokens_exact :
    (∀ (buffer : List Nat) (req : Request), Request.parse buffer = .ok req →
      req.method = byteSlice buffer 0 (scanRequestLine buffer).1 ∧
      req.resource = byteSlice buffer ((scanRequestLine buffer).1 + 1) (scanRequestLine buffer).2.1 ∧
      req.http_version =
        byteSlice buffer ((scanRequestLine buffer).2.1 + 1) (scanRequestLine buffer).2.2) ∧
    Request.parse (ascii "GET /hello.htm HTTP/1.1\r\nUser-Agent: Mozilla/4.0 (compatible; MSIE5.01; Windows NT)\r\nHost: 127.0.0.1:8000\r\n\r\n") =
      .ok { method := ascii "GET", resource := ascii "/hello.htm", http_version := ascii "HTTP/1.1" } := by
  constructor
  · intro buffer req h
    simp only [Request.parse] at h
    split at h
    · exact absurd h (by simp)
    · rcases hm : from_utf8 (byteSlice buffer 0 (scanRequestLine buffer).1) with _ | m
      · simp only [hm] at h
        exact absurd h (by simp)
      · simp only [hm] at h
        rcases hr : from_utf8
            (byteSlice buffer ((scanRequestLine buffer).1 + 1) (scanRequestLine buffer).2.1) with _ | r
        · simp only [hr] at h
          exact absurd h (by simp)
        · simp only [hr] at h
          rcases hv : from_utf8
              (byteSlice buffer ((scanRequestLine buffer).2.1 + 1) (scanRequestLine buffer).2.2) with _ | v
          · simp only [hv] at h
            exact absurd h (by simp)
          · simp only [hv] at h
            injection h with h
            subst h
            exact ⟨from_utf8_eq_some hm, from_utf8_eq_some hr, from_utf8_eq_some hv⟩
  · decide

/-- Witness for the universally quantified part of C4 at a concrete buffer. -/
theorem claim_parse_tokens_exact_witness :
    (Request.mk (ascii "GET") (ascii "/a") (ascii "HTTP/1.1")).method =
      byteSlice (ascii "GET /a HTTP/1.1\r\n") 0 (scanRequestLine (ascii "GET /a HTTP/1.1\r\n")).1 ∧
    (Request.mk (ascii "GET") (ascii "/a") (ascii "HTTP/1.1")).resource =
      byteSlice (ascii "GET /a HTTP/1.1\r\n") ((scanRequestLine (ascii "GET /a HTTP/1.1\r\n")).1 + 1)
        (scanRequestLine (ascii "GET /a HTTP/1.1\r\n")).2.1 ∧
    (Request.mk (ascii "GET") (ascii "/a") (ascii "HTTP/1.1")).http_version =
      byteSlice (ascii "GET /a HTTP/1.1\r\n") ((scanRequestLine (ascii "GET /a HTTP/1.1\r\n")).2.1 + 1)
        (scanRequestLine (ascii "GET /a HTTP/1.1\r\n")).2.2 :=
  claim_parse_tokens_exact.1 (ascii "GET /a HTTP/1.1\r\n")
    (Request.mk (ascii "GET") (ascii "/a") (ascii "HTTP/1.1")) (by decide)

/-- When no byte of the list is CR or LF, the scan never sets the end-of-line
index, leaving it 0. -/
theorem scanLoop_no_terminator (l : List Nat) : ∀ (i iem ier : Nat),
    (∀ b ∈ l, b ≠ 13 ∧ b ≠ 10) → (scanLoop l i iem ier).2.2 = 0 := by
  induction l with
  | nil => intro i iem ier _; rfl
  | cons b rest ih =>
    intro i iem ier h
    have hb := h b (by simp)
    have ht : ¬(b = 13 ∨ b = 10) := by
      rintro (hh | hh)
      · exact hb.1 hh
      · exact hb.2 hh
    have hrest : ∀ x ∈ rest, x ≠ 13 ∧ x ≠ 10 := fun x hx => h x (by simp [hx])
    simp only [scanLoop, if_neg ht]
    split
    · split
      · exact ih _ _ _ hrest
      · split
        · exact ih _ _ _ hrest
        · exact ih _ _ _ hrest
    · exact ih _ _ _ hrest

/-- Space count through a cons whose head is a line terminator. -/
theorem spacesBefore_cons_term {b : Nat} (l : List Nat) (h : b = 13 ∨ b = 10) :
    spacesBeforeTerminator (b :: l) = 0 := by
  rcases h with h | h <;> subst h <;> rfl

/-- Space count through a cons whose head is a space. -/
theorem spacesBefore_cons_space (l : List Nat) :
    spacesBeforeTerminator (32 :: l) = spacesBeforeTerminator l + 1 := by
  simp [spacesBeforeTerminator, List.takeWhile_cons, List.countP_cons]

/-- Space count through a cons whose head is an ordinary byte. -/
theorem spacesBefore_cons_other {b : Nat} (l : List Nat) (h1 : ¬(b = 13 ∨ b = 10))
    (h2 : b ≠ 32) : spacesBeforeTerminator (b :: l) = spacesBeforeTerminator l := by
  push_neg at h1
  simp [spacesBeforeTerminator, List.takeWhile_cons, List.countP_cons, h1.1, h1.2, h2]

/-- When the scan sets the end-of-resource index, either it was already set,
or the list holds enough space bytes before its first terminator: two when
the end-of-method index starts unset, one otherwise. -/
theorem scanLoop_spaces (l : List Nat) : ∀ (i iem ier : Nat),
    (scanLoop l i iem ier).2.1 ≠ 0 →
    ier ≠ 0 ∨ (iem ≠ 0 ∧ 1 ≤ spacesBeforeTerminator l) ∨ 2 ≤ spacesBeforeTerminator l := by
  induction l with
  | nil => intro i iem ier h; exact Or.inl h
  | cons b rest ih =>
    intro i iem ier h
    by_cases ht : b = 13 ∨ b = 10
    · simp only [scanLoop, if_pos ht] at h
      exact Or.inl h
    · simp only [scanLoop, if_neg ht] at h
      by_cases hs : b = 32
      · subst hs
        rw [if_pos rfl] at h
        by_cases hm : iem = 0
        · rw [if_pos hm] at h
          rcases ih _ _ _ h with h' | ⟨_, h2⟩ | h'
          · exact Or.inl h'
          · right; right; rw [spacesBefore_cons_space]; omega
          · right; right; rw [spacesBefore_cons_space]; omega
        · rw [if_neg hm] at h
          by_cases hr : ier = 0
          · right; left
            exact ⟨hm, by rw [spacesBefore_cons_space]; omega⟩
          · exact Or.inl hr
      · rw [if_neg hs] at h
        rcases ih _ _ _ h with h' | ⟨h1, h2⟩ | h'
        · exact Or.inl h'
        · right; left; exact ⟨h1, by rw [spacesBefore_cons_other rest ht hs]; omega⟩
        · right; right; rw [spacesBefore_cons_other rest ht hs]; omega

/-- C5: the parser answers the fixed 400 malformed-request-line Response
whenever the buffer has no CR or LF at all, or fewer than two space bytes
before its first line terminator (which covers every buffer with no space
before the terminator). -/
theorem claim_parse_malformed_line (buffer : List Nat)
    (h : (∀ b ∈ buffer, b ≠ 13 ∧ b ≠ 10) ∨ spacesBeforeTerminator buffer < 2) :
    Request.parse buffer = .error (Response.new 400 (ascii "Malformed request line")) := by
  have hcond : (scanRequestLine buffer).2.2 = 0 ∨ (scanRequestLine buffer).2.1 = 0 ∨
      (scanRequestLine buffer).1 = 0 := by
    simp only [scanRequestLine]
    rcases h with h | h
    · exact Or.inl (scanLoop_no_terminator buffer 0 0 0 h)
    · by_cases hr : (scanLoop buffer 0 0 0).2.1 = 0
      · exact Or.inr (Or.inl hr)
      · rcases scanLoop_spaces buffer 0 0 0 hr with h' | ⟨h1, _⟩ | h'
        · exact absurd rfl h'
        · exact absurd rfl h1
        · omega
  simp only [Request.parse]
  rw [if_pos hcond]

/-- Witness for C5 at a concrete buffer with no space before its CR. -/
theorem claim_parse_malformed_line_witness :
    ((∀ b ∈ ascii "NOSPACES\r\nX", b ≠ 13 ∧ b ≠ 10) ∨
      spacesBeforeTerminator (ascii "NOSPACES\r\nX") < 2) ∧
    Request.parse (ascii "NOSPACES\r\nX") =
      .error (Response.new 400 (ascii "Malformed request line")) :=
  ⟨Or.inr (by decide), claim_parse_malformed_line (ascii "NOSPACES\r\nX") (Or.inr (by decide))⟩

/-- A count of zero leaves the scanned list unchanged, whatever the fuel. -/
theorem replacenAux_zero (pat rep : List Nat) (fuel : Nat) (s : List Nat) :
    replacenAux pat rep fuel s 0 = s := by
  cases fuel <;> cases s <;> rfl

/-- With the slash pattern, the empty replacement and count one, replacen
removes exactly the first slash byte of the list. -/
theorem replacenAux_slash : ∀ (fuel : Nat) (s : List Nat), s.length ≤ fuel →
    replacenAux [47] [] fuel s 1 = stripFirstSeparator s := by
  intro fuel
  induction fuel with
  | zero =>
    intro s hs
    have hnil : s = [] := List.eq_nil_of_length_eq_zero (Nat.le_zero.mp hs)
    subst hnil
    rfl
  | succ fuel ih =>
    intro s hs
    cases s with
    | nil => rfl
    | cons b rest =>
      simp only [replacenAux, stripFirstSeparator]
      by_cases hb : b = 47
      · subst hb
        have hcond : ([47].isPrefixOf (47 :: rest) && !List.isEmpty [47]) = true := by
          simp [List.isPrefixOf]
        rw [if_pos hcond]
        simp [replacenAux_zero]
      · have hcond : ¬(([47].isPrefixOf (b :: rest) && !List.isEmpty [47]) = true) := by
          simp [List.isPrefixOf]
          intro hh
          exact absurd hh.symm hb
        rw [if_neg hcond, if_neg hb]
        have hlen : rest.length ≤ fuel := by
          simp only [List.length_cons] at hs
          omega
        rw [ih rest hlen]

/-- C6 (amended): the resolved filesystem path is the webroot, a slash, and
the resource with the first slash byte found anywhere in it removed (which is
the leading separator exactly when the resource starts with one); nothing
else changes, so parent-directory segments survive untouched. -/
theorem claim_resource_path_amended :
    (∀ (resource webroot : List Nat),
      ResourcePath.get_path { resource := resource } webroot =
        webroot ++ [47] ++ stripFirstSeparator resource) ∧
    (∀ (resource webroot : List Nat), resource.head? = some 47 →
      ResourcePath.get_path { resource := resource } webroot =
        webroot ++ [47] ++ resource.tail) ∧
    ResourcePath.get_path { resource := ascii "/hello.jpg" } (ascii "/var/www/myWebsite") =
      ascii "/var/www/myWebsite/hello.jpg" ∧
    ResourcePath.get_path { resource := ascii "/../secret" } (ascii "/var/www") =
      ascii "/var/www/../secret" := by
  have hmain : ∀ (resource webroot : List Nat),
      ResourcePath.get_path { resource := resource } webroot =
        webroot ++ [47] ++ stripFirstSeparator resource := by
    intro resource webroot
    show webroot ++ [47] ++ replacen resource [47] [] 1 = _
    rw [replacen, replacenAux_slash resource.length resource (Nat.le_refl _)]
  refine ⟨hmain, ?_, by decide, by decide⟩
  intro resource webroot hhead
  cases resource with
  | nil => simp at hhead
  | cons b rest =>
    simp only [List.head?_cons, Option.some.injEq] at hhead
    subst hhead
    rw [hmain]
    rfl

/-- Witness for the head-slash part of C6 at a concrete resource. -/
theorem claim_resource_path_amended_witness :
    (ascii "/x").head? = some 47 ∧
    ResourcePath.get_path { resource := ascii "/x" } (ascii "w") =
      ascii "w" ++ [47] ++ (ascii "/x").tail :=
  ⟨by decide, claim_resource_path_amended.2.1 (ascii "/x") (ascii "w") (by decide)⟩

/-- Counterexample for C6 as frozen: for a resource with no leading separator
the claim predicts the resource is joined unchanged, but the code removes the
first slash found anywhere, so the inner separator of a/b disappears. -/
theorem claim_resource_path_cx :
    ResourcePath.get_path { resource := ascii "a/b" } (ascii "/w") = ascii "/w/ab" ∧
    ascii "/w/ab" ≠ ascii "/w/a/b" := by
  constructor <;> decide

/-- C8: once a request parses, a method other than GET is rejected with the
fixed 501 Response before anything else is examined, then a version other
than HTTP/1.1 with the fixed 505 Response, and only when both checks pass is
the resolved file read attempted (its outcome giving the 200 or 404
Response); concretely POST with HTTP/1.1 gives 501, GET with HTTP/1.0 gives
505, and POST with HTTP/1.0 gives 501, showing the method check comes
first. -/
theorem claim_method_version_checks :
    (∀ (webroot : List Nat) (request_max_bytes : Nat)
        (read_file : List Nat → Except (List Nat) (List Nat)) (delivered : List Nat)
        (req : Request),
      delivered.length < request_max_bytes →
      Request.parse (readIntoBuffer (request_max_bytes + 1) delivered) = .ok req →
      ((req.method ≠ ascii "GET" →
        handle_connection_response webroot request_max_bytes read_file (.ok delivered) =
          Response.new 501 (ascii "This server only accepts GET requests.")) ∧
       (req.method = ascii "GET" → req.http_version ≠ ascii "HTTP/1.1" →
        handle_connection_response webroot request_max_bytes read_file (.ok delivered) =
          Response.new 505 (ascii "This server only speaks HTTP/1.1")) ∧
       (req.method = ascii "GET" → req.http_version = ascii "HTTP/1.1" →
        handle_connection_response webroot request_max_bytes read_file (.ok delivered) =
          match read_file (ResourcePath.get_path { resource := req.resource } webroot) with
          | .ok bytes =>
              { code := 200, mime := ResourcePath.get_mime { resource := req.resource },
                body := bytes }
          | .error e => Response.new 404 e))) ∧
    handle_connection_response (ascii "w") 100 (fun _ => .error (ascii "no"))
        (.ok (ascii "POST /x HTTP/1.1\r\n")) =
      Response.new 501 (ascii "This server only accepts GET requests.") ∧
    handle_connection_response (ascii "w") 100 (fun _ => .error (ascii "no"))
        (.ok (ascii "GET /x HTTP/1.0\r\n")) =
      Response.new 505 (ascii "This server only speaks HTTP/1.1") ∧
    handle_connection_response (ascii "w") 100 (fun _ => .error (ascii "no"))
        (.ok (ascii "POST /x HTTP/1.0\r\n")) =
      Response.new 501 (ascii "This server only accepts GET requests.") := by
  refine ⟨?_, by decide, by decide, by decide⟩
  intro webroot request_max_bytes read_file delivered req hlen hparse
  have hnot : ¬ request_max_bytes ≤ delivered.length := by omega
  simp only [handle_connection_response, if_neg hnot, hparse]
  refine ⟨fun hm => ?_, fun hm hv => ?_, fun hm hv => ?_⟩
  · rw [if_pos hm]
  · rw [if_neg (not_not_intro hm), if_pos hv]
  · rw [if_neg (not_not_intro hm), if_neg (not_not_intro hv)]

/-- Witness for the universally quantified part of C8 at a concrete POST
request. -/
theorem claim_method_version_checks_witness :
    (ascii "POST /x HTTP/1.1\r\n").length < 100 ∧
    Request.parse (readIntoBuffer (100 + 1) (ascii "POST /x HTTP/1.1\r\n")) =
      .ok (Request.mk (ascii "POST") (ascii "/x") (ascii "HTTP/1.1")) ∧
    (((Request.mk (ascii "POST") (ascii "/x") (ascii "HTTP/1.1")).method ≠ ascii "GET" →
      handle_connection_response (ascii "w") 100 (fun _ => .error (ascii "no"))
          (.ok (ascii "POST /x HTTP/1.1\r\n")) =
        Response.new 501 (ascii "This server only accepts GET requests.")) ∧
     ((Request.mk (ascii "POST") (ascii "/x") (ascii "HTTP/1.1")).method = ascii "GET" →
      (Request.mk (ascii "POST") (ascii "/x") (ascii "HTTP/1.1")).http_version ≠ ascii "HTTP/1.1" →
      handle_connection_response (ascii "w") 100 (fun _ => .error (ascii "no"))
          (.ok (ascii "POST /x HTTP/1.1\r\n")) =
        Response.new 505 (ascii "This server only speaks HTTP/1.1")) ∧
     ((Request.mk (ascii "POST") (ascii "/x") (ascii "HTTP/1.1")).method = ascii "GET" →
      (Request.mk (ascii "POST") (ascii "/x") (ascii "HTTP/1.1")).http_version = ascii "HTTP/1.1" →
      handle_connection_response (ascii "w") 100 (fun _ => .error (ascii "no"))
          (.ok (ascii "POST /x HTTP/1.1\r\n")) =
        match (fun (_ : List Nat) => (.error (ascii "no") : Except (List Nat) (List Nat)))
            (ResourcePath.get_path
              { resource := (Request.mk (ascii "POST") (ascii "/x") (ascii "HTTP/1.1")).resource }
              (ascii "w")) with
        | .ok bytes =>
            { code := 200,
              mime := ResourcePath.get_mime
                { resource := (Request.mk (ascii "POST") (ascii "/x") (ascii "HTTP/1.1")).resource },
              body := bytes }
        | .error e => Response.new 404 e)) :=
  ⟨by decide, by decide,
    claim_method_version_checks.1 (ascii "w") 100 (fun _ => .error (ascii "no"))
      (ascii "POST /x HTTP/1.1\r\n") (Request.mk (ascii "POST") (ascii "/x") (ascii "HTTP/1.1"))
      (by decide) (by decide)⟩

/-- The last element of a cons is the last element of the tail, with the head
as fallback for a singleton. -/
theorem getLast?_or {α : Type} (a : α) (l : List α) :
    (a :: l).getLast? = l.getLast?.or (some a) := by
  induction l generalizing a with
  | nil => rfl
  | cons b t ih =>
    rw [List.getLast?_cons_cons, ih b]
    cases h : t.getLast? <;> rfl

/-- The keep-last left fold used by lastSegmentSpec computes the last element
of the filtered list, with the initial accumulator as fallback. -/
theorem foldl_keepLast : ∀ (l : List (List Nat)) (init : Option (List Nat)),
    l.foldl (fun acc c => if c.isEmpty || c = [46] then acc else some c) init =
      ((l.filter (fun c => !c.isEmpty && c ≠ [46])).getLast?).or init := by
  intro l
  induction l with
  | nil => intro init; rfl
  | cons c t ih =>
    intro init
    simp only [List.foldl_cons, List.filter_cons]
    by_cases hp : (c.isEmpty || decide (c = [46])) = true
    · rw [if_pos hp]
      have hpred : (!c.isEmpty && decide (c ≠ [46])) = false := by
        simp only [decide_not, ← Bool.not_or, hp]
        rfl
      rw [hpred]
      simp only [Bool.false_eq_true, if_false]
      exact ih init
    · rw [if_neg hp]
      have hpred : (!c.isEmpty && decide (c ≠ [46])) = true := by
        simp only [decide_not, ← Bool.not_or]
        rw [Bool.eq_false_iff.mpr hp]
        rfl
      rw [hpred]
      simp only [if_true]
      rw [ih (some c), getLast?_or c (t.filter fun c => !c.isEmpty && decide (c ≠ [46]))]
      cases h : (t.filter (fun c => !c.isEmpty && decide (c ≠ [46]))).getLast? <;> rfl

/-- The spec-side final segment is the last raw component that is neither
empty nor a lone dot, which is what the component filter of pathFileName
keeps. -/
theorem lastSegmentSpec_eq (resource : List Nat) :
    lastSegmentSpec resource =
      ((splitOnSlash resource).filter (fun c => !c.isEmpty && c ≠ [46])).getLast? := by
  unfold lastSegmentSpec
  rw [foldl_keepLast]
  cases h : ((splitOnSlash resource).filter (fun c => !c.isEmpty && decide (c ≠ [46]))).getLast? <;> rfl

/-- No last-dot index exists exactly when the list holds no dot byte. -/
theorem rfindDot_eq_none (l : List Nat) : rfindDot l = none ↔ l.contains 46 = false := by
  induction l with
  | nil => simp [rfindDot]
  | cons b rest ih =>
    simp only [rfindDot]
    cases h : rfindDot rest with
    | some i =>
      have hc : rest.contains 46 = true := by
        by_cases hcc : rest.contains 46 = true
        · exact hcc
        · have hn := ih.mpr (Bool.eq_false_iff.mpr hcc)
          rw [hn] at h
          exact absurd h (by simp)
      constructor
      · intro hh
        exact absurd hh (by simp)
      · intro hh
        rw [List.contains_cons, hc] at hh
        simp at hh
    | none =>
      have hc : rest.contains 46 = false := ih.mp h
      by_cases hb : b = 46
      · subst hb
        simp [hc, List.contains_cons]
      · have hbb : (b == 46) = false := by simpa using hb
        have hbb2 : (46 == b) = false := by simpa using fun hh => hb hh.symm
        simp only [hbb, hbb2, hc, List.contains_cons, Bool.false_or]
        simp

/-- A found last-dot index means the list holds a dot byte. -/
theorem rfindDot_some_contains {l : List Nat} {i : Nat} (h : rfindDot l = some i) :
    l.contains 46 = true := by
  by_cases hc : l.contains 46 = true
  · exact hc
  · rw [(rfindDot_eq_none l).mpr (Bool.eq_false_iff.mpr hc)] at h
    exact absurd h (by simp)

/-- The last dot sits at index zero exactly when the list starts with a dot
and has no further dot: the dotfile shape. -/
theorem rfindDot_eq_some_zero (l : List Nat) :
    rfindDot l = some 0 ↔ l.head? = some 46 ∧ l.tail.contains 46 = false := by
  cases l with
  | nil => simp [rfindDot]
  | cons b rest =>
    simp only [rfindDot, List.head?_cons, List.tail_cons]
    cases h : rfindDot rest with
    | some i =>
      have hc : rest.contains 46 = true := rfindDot_some_contains h
      constructor
      · intro hh
        exact absurd hh (by simp)
      · rintro ⟨_, htl⟩
        rw [hc] at htl
        exact absurd htl (by simp)
    | none =>
      have hc : rest.contains 46 = false := (rfindDot_eq_none rest).mp h
      by_cases hb : b = 46
      · subst hb
        simp only [beq_self_eq_true, if_true]
        simp [hc]
        simpa using hc
      · have hbb : (b == 46) = false := by simpa using hb
        simp [hbb, hc, hb]

/-- The source-side extension computation agrees with the spec-side
formulation on every resource byte list. -/
theorem get_extension_eq_spec (resource : List Nat) :
    ResourcePath.get_extension { resource := resource } = extensionSpec resource := by
  unfold ResourcePath.get_extension pathExtension pathFileName extensionSpec
  rw [lastSegmentSpec_eq]
  cases hL : ((splitOnSlash resource).filter (fun c => !c.isEmpty && c ≠ [46])).getLast? with
  | none => rfl
  | some seg =>
    by_cases hdd : seg = [46, 46]
    · subst hdd
      decide
    · simp only [if_neg hdd]
      cases hf : rfindDot seg with
      | none => rfl
      | some i =>
        cases i with
        | zero =>
          obtain ⟨hh, htl⟩ := (rfindDot_eq_some_zero seg).mp hf
          have hcond : (decide (seg.head? = some 46) && !seg.tail.contains 46) = true := by
            rw [hh, htl]
            decide
          simp [hcond]
          intro h1 _
          exact absurd (h1 hh) (by simpa using htl)
        | succ j =>
          have hcond : ¬((decide (seg.head? = some 46) && !seg.tail.contains 46) = true) := by
            intro hc
            simp only [Bool.and_eq_true, decide_eq_true_eq, Bool.not_eq_true'] at hc
            have := (rfindDot_eq_some_zero seg).mpr ⟨hc.1, hc.2⟩
            rw [this] at hf
            exact absurd hf (by simp)
          simp [hcond]
          have hprop : ¬(seg.head? = some 46 ∧ 46 ∉ seg.tail) := by
            intro hc
            apply hcond
            have hc2 : seg.tail.contains 46 = false := by simpa using hc.2
            rw [hc.1, hc2]
            decide
          rw [if_neg hprop]

/-- C7 (amended): the extracted extension is the substring after the last dot
of the final path segment (the last component that is neither empty nor a
lone dot, so trailing separators and dot segments are skipped), with the
empty string when there is no such segment, no dot, a parent-directory
segment, or a dotfile segment whose only dot is its leading byte, and with
non-text extraction results degrading to the empty string. -/
theorem claim_extension_amended :
    (∀ (resource : List Nat),
      ResourcePath.get_extension { resource := resource } = extensionSpec resource) ∧
    ResourcePath.get_extension { resource := ascii "/hello.jpg" } = ascii "jpg" ∧
    ResourcePath.get_extension { resource := ascii "/hello" } = [] ∧
    ResourcePath.get_extension { resource := ascii "/.hidden" } = [] :=
  ⟨get_extension_eq_spec, by decide, by decide, by decide⟩

/-- Counterexample for C7 as frozen: the final segment of /.hidden is
.hidden, whose substring after the last dot is hidden, yet the code extracts
the empty string - a dotfile name is not treated as an extension. -/
theorem claim_extension_cx :
    ResourcePath.get_extension { resource := ascii "/.hidden" } = [] ∧
    ascii "hidden" ≠ ([] : List Nat) := by
  constructor <;> decide
